import Mathlib

/-!
Verification of the reference-operator layer (torch._refs.special) and the
ONNX operator-consistency harness (test/onnx/test_op_consistancy.py).

The embedding models:
  - dtypes as an enumeration matching SUPPORTED_DTYPES;
  - elementwise float values as an extended-rational domain with NaN and
    signed infinities (the claims under test concern NaN propagation and
    select/clamp structure, which this domain captures exactly; the
    transcendental parts of log and log1p are kept as parameters);
  - tensors as flat lists of such values (elementwise ops act positionwise
    after broadcasting, so a flat list of equal-length operands suffices);
  - the consistency-test harness data (DecorateMeta, XfailOpset, skip_ops,
    and the per-(sample, opset) sub-test body) as executable definitions.
-/

/-- Semantic dtype tags, matching SUPPORTED_DTYPES in the consistency test. -/
inductive Dtype where
  | bool
  | uint8
  | int8
  | int16
  | int32
  | int64
  | float16
  | float32
  | float64
  | bfloat16
  | qint8
  | quint8
  | complex32
  | complex64
  | complex128
deriving DecidableEq, Repr

instance : BEq Dtype := instBEqOfDecidableEq

/-- An elementwise floating value: NaN, a signed infinity, or a finite value
modelled as a rational. -/
inductive FVal where
  | nan
  | inf
  | ninf
  | fin (q : ℚ)
deriving DecidableEq, Repr

/-- Elementwise isnan. -/
def fIsNan : FVal → Bool
  | FVal.nan => true
  | _ => false

/-- Elementwise equality compare with IEEE semantics: NaN compares unequal to
everything, including itself. -/
def fEq : FVal → FVal → Bool
  | FVal.fin x, FVal.fin y => x == y
  | FVal.inf, FVal.inf => true
  | FVal.ninf, FVal.ninf => true
  | _, _ => false

/-- Elementwise multiplication with IEEE semantics: NaN propagates, and a
product of zero with an infinity is NaN. -/
def fMul : FVal → FVal → FVal
  | FVal.nan, _ => FVal.nan
  | _, FVal.nan => FVal.nan
  | FVal.fin x, FVal.fin y => FVal.fin (x * y)
  | FVal.fin x, FVal.inf =>
      if x = 0 then FVal.nan else if 0 < x then FVal.inf else FVal.ninf
  | FVal.fin x, FVal.ninf =>
      if x = 0 then FVal.nan else if 0 < x then FVal.ninf else FVal.inf
  | FVal.inf, FVal.fin y =>
      if y = 0 then FVal.nan else if 0 < y then FVal.inf else FVal.ninf
  | FVal.ninf, FVal.fin y =>
      if y = 0 then FVal.nan else if 0 < y then FVal.ninf else FVal.inf
  | FVal.inf, FVal.inf => FVal.inf
  | FVal.inf, FVal.ninf => FVal.ninf
  | FVal.ninf, FVal.inf => FVal.ninf
  | FVal.ninf, FVal.ninf => FVal.inf

/-- Elementwise subtraction with IEEE semantics. -/
def fSub : FVal → FVal → FVal
  | FVal.nan, _ => FVal.nan
  | _, FVal.nan => FVal.nan
  | FVal.fin x, FVal.fin y => FVal.fin (x - y)
  | FVal.fin _, FVal.inf => FVal.ninf
  | FVal.fin _, FVal.ninf => FVal.inf
  | FVal.inf, FVal.fin _ => FVal.inf
  | FVal.ninf, FVal.fin _ => FVal.ninf
  | FVal.inf, FVal.inf => FVal.nan
  | FVal.inf, FVal.ninf => FVal.inf
  | FVal.ninf, FVal.inf => FVal.ninf
  | FVal.ninf, FVal.ninf => FVal.nan

/-- Elementwise division with IEEE semantics (the model has no signed zero, so
a finite value divided by an infinity is plain zero). -/
def fDiv : FVal → FVal → FVal
  | FVal.nan, _ => FVal.nan
  | _, FVal.nan => FVal.nan
  | FVal.fin x, FVal.fin y =>
      if y = 0 then
        (if x = 0 then FVal.nan else if 0 < x then FVal.inf else FVal.ninf)
      else FVal.fin (x / y)
  | FVal.fin _, FVal.inf => FVal.fin 0
  | FVal.fin _, FVal.ninf => FVal.fin 0
  | FVal.inf, FVal.fin y => if 0 ≤ y then FVal.inf else FVal.ninf
  | FVal.ninf, FVal.fin y => if 0 ≤ y then FVal.ninf else FVal.inf
  | FVal.inf, FVal.inf => FVal.nan
  | FVal.inf, FVal.ninf => FVal.nan
  | FVal.ninf, FVal.inf => FVal.nan
  | FVal.ninf, FVal.ninf => FVal.nan

/-- torch.clamp with finite scalar bounds: computes min(max(x, lo), hi)
elementwise and propagates NaN. -/
def fClamp (x : FVal) (lo hi : ℚ) : FVal :=
  match x with
  | FVal.nan => FVal.nan
  | FVal.inf => FVal.fin hi
  | FVal.ninf => FVal.fin (min hi lo)
  | FVal.fin q => FVal.fin (min hi (max lo q))

/-- Natural log. The transcendental part (log of a positive rational) is the
parameter l; log of zero is negative infinity and log of a negative value or
of negative infinity is NaN, as in IEEE float math. -/
def fLog (l : ℚ → FVal) : FVal → FVal
  | FVal.nan => FVal.nan
  | FVal.inf => FVal.inf
  | FVal.ninf => FVal.nan
  | FVal.fin q => if 0 < q then l q else if q = 0 then FVal.ninf else FVal.nan

/-- log1p. The transcendental part (log1p of a rational above -1) is the
parameter l; log1p(-1) is negative infinity, log1p below -1 is NaN. -/
def fLog1p (l : ℚ → FVal) : FVal → FVal
  | FVal.nan => FVal.nan
  | FVal.inf => FVal.inf
  | FVal.ninf => FVal.nan
  | FVal.fin q =>
      if -1 < q then l q else if q = -1 then FVal.ninf else FVal.nan

/-! Tensor level: a tensor is a flat list of elementwise values (the operands
of the composite ops below are applied after broadcasting, so equal-length
flat lists model each aligned position). -/

/-- refs.eq of a tensor against a scalar, elementwise. -/
def refsEqScalar (a : List FVal) (c : FVal) : List Bool :=
  a.map (fun x => fEq x c)

/-- refs.isnan, elementwise. -/
def refsIsnan (b : List FVal) : List Bool :=
  b.map fIsNan

/-- refs.mul of two tensors, elementwise. -/
def refsMul (a b : List FVal) : List FVal :=
  List.zipWith fMul a b

/-- refs.log1p, elementwise. -/
def refsLog1p (l : ℚ → FVal) (b : List FVal) : List FVal :=
  b.map (fLog1p l)

/-- refs.where with a boolean condition tensor, a scalar true-branch and a
tensor false-branch (the two shapes used by _xlog1py). -/
def refsWhereScalar (cond : List Bool) (t : FVal) (f : List FVal) : List FVal :=
  List.zipWith (fun c x => if c then t else x) cond f

/-- The elementwise computation of _xlog1py after operand normalization
(torch/_refs/special/__init__.py lines 84-85):
rhs = where(eq(a, 0), 0, mul(a, log1p(b))); result = where(isnan(b), nan, rhs). -/
def xlog1pyCore (l : ℚ → FVal) (a b : List FVal) : List FVal :=
  let rhs := refsWhereScalar (refsEqScalar a (FVal.fin 0)) (FVal.fin 0)
      (refsMul a (refsLog1p l b))
  refsWhereScalar (refsIsnan b) FVal.nan rhs

/-- The decomposition of logit (torch/_refs/special/__init__.py lines 56-62):
with eps unset, eps becomes -1.0; lo = eps, hi = 1 - eps; the input is clamped
to that interval and the result is log(x / (1 - x)) on the clamped value. -/
def logit (l : ℚ → FVal) (self : FVal) (eps : Option ℚ) : FVal :=
  let e : ℚ := match eps with
    | none => -1
    | some v => v
  let lo := e
  let hi := 1 - e
  let c := fClamp self lo hi
  fLog l (fDiv c (fSub (FVal.fin 1) c))

lemma xlog1pyCore_nil_left (l : ℚ → FVal) (b : List FVal) :
    xlog1pyCore l [] b = [] := by
  cases b <;> rfl

lemma xlog1pyCore_nil_right (l : ℚ → FVal) (a : List FVal) :
    xlog1pyCore l a [] = [] := by
  cases a <;> rfl

lemma xlog1pyCore_cons (l : ℚ → FVal) (x y : FVal) (a b : List FVal) :
    xlog1pyCore l (x :: a) (y :: b) =
      (if fIsNan y then FVal.nan
       else if fEq x (FVal.fin 0) then FVal.fin 0
       else fMul x (fLog1p l y)) :: xlog1pyCore l a b := by
  simp only [xlog1pyCore, refsWhereScalar, refsEqScalar, refsIsnan, refsMul,
    refsLog1p, List.map_cons, List.zipWith_cons_cons]

/-- With eps unset the clamp interval is [-1, 2]; wherever the clamp actually
changes the input, both the clamped and the unclamped computation yield NaN, so
the result is the unclamped log(x / (1 - x)). -/
lemma logit_none_eq (l : ℚ → FVal) (x : FVal) :
    logit l x none = fLog l (fDiv x (fSub (FVal.fin 1) x)) := by
  cases x with
  | nan => rfl
  | inf =>
      show fLog l (fDiv (fClamp FVal.inf (-1) (1 - -1)) _) = _
      norm_num [fClamp, fSub, fDiv, fLog]
  | ninf =>
      show fLog l (fDiv (fClamp FVal.ninf (-1) (1 - -1)) _) = _
      norm_num [fClamp, fSub, fDiv, fLog]
  | fin q =>
      show fLog l
          (fDiv (fClamp (FVal.fin q) (-1) (1 - -1))
            (fSub (FVal.fin 1) (fClamp (FVal.fin q) (-1) (1 - -1)))) = _
      rcases lt_trichotomy q (-1) with h1 | h1 | h1
      · have hc : fClamp (FVal.fin q) (-1) (1 - -1) = FVal.fin (-1) := by
          have hmax : max (-1 : ℚ) q = -1 := max_eq_left h1.le
          simp [fClamp, hmax]
          norm_num
        rw [hc]
        have hden : (1 : ℚ) - q ≠ 0 := sub_ne_zero_of_ne (ne_of_gt (by linarith))
        have hneg : q / (1 - q) < 0 :=
          div_neg_of_neg_of_pos (by linarith) (by linarith)
        simp [fSub, fDiv, fLog, hden, not_lt.2 hneg.le, ne_of_lt hneg]
      · subst h1
        have hc : fClamp (FVal.fin (-1)) (-1) (1 - -1) = FVal.fin (-1) := by
          simp [fClamp]
          norm_num
        rw [hc]
      · rcases le_or_lt q 2 with h2 | h2
        · have hc : fClamp (FVal.fin q) (-1) (1 - -1) = FVal.fin q := by
            show FVal.fin (min (1 - -1) (max (-1) q)) = FVal.fin q
            rw [show (1 : ℚ) - -1 = 2 by norm_num, max_eq_right h1.le,
              min_eq_right h2]
          rw [hc]
        · have hc : fClamp (FVal.fin q) (-1) (1 - -1) = FVal.fin 2 := by
            show FVal.fin (min (1 - -1) (max (-1) q)) = FVal.fin 2
            rw [show (1 : ℚ) - -1 = 2 by norm_num,
              max_eq_right (le_of_lt (by linarith)),
              min_eq_left (le_of_lt h2)]
          rw [hc]
          have hden : (1 : ℚ) - q ≠ 0 := sub_ne_zero_of_ne (ne_of_lt (by linarith))
          have hneg : q / (1 - q) < 0 :=
            div_neg_of_pos_of_neg (by linarith) (by linarith)
          norm_num [fSub, fDiv, fLog, hden, not_lt.2 hneg.le, ne_of_lt hneg]

/-- A tensor-like value: either a structured tensor with a dtype, a device and
flat data (ndim kept to identify zero-dimensional tensors), or a bare scalar
number. -/
inductive TValue where
  | tensor (dtype : Dtype) (device : String) (ndim : ℕ) (data : List FVal)
  | scalar (x : FVal)
deriving DecidableEq, Repr

/-- isinstance(v, TensorLike). -/
def isTensorLike : TValue → Bool
  | TValue.tensor _ _ _ _ => true
  | TValue.scalar _ => false

/-- Dtype of a structured value (the default only pads the total function; the
prologue reads it from tensors alone). -/
def tensorDtype : TValue → Dtype
  | TValue.tensor dt _ _ _ => dt
  | TValue.scalar _ => Dtype.float32

/-- Device of a structured value (same padding convention as tensorDtype). -/
def tensorDevice : TValue → String
  | TValue.tensor _ dev _ _ => dev
  | TValue.scalar _ => "cpu"

/-- Modelled from the spec: utils.is_cpu_scalar_tensor lives in
torch._prims.utils, which is not part of this repository snapshot; the spec
describes the promoted case as "a zero-dimensional host-resident value needing
device transfer", so the predicate holds of a zero-dimensional tensor on the
cpu device. -/
def is_cpu_scalar_tensor : TValue → Bool
  | TValue.tensor _ dev ndim _ => ndim == 0 && dev == "cpu"
  | TValue.scalar _ => false

/-- prims.scalar_tensor: wraps a bare scalar as a zero-dimensional tensor with
the given dtype and device. -/
def scalar_tensor (x : FVal) (dtype : Dtype) (device : String) : TValue :=
  TValue.tensor dtype device 0 [x]

/-- prims.device_put: moves a value to the given device. -/
def device_put : TValue → String → TValue
  | TValue.tensor dt _ ndim data, dev => TValue.tensor dt dev ndim data
  | TValue.scalar x, _ => TValue.scalar x

/-- The operand-normalization prologue of _xlog1py
(torch/_refs/special/__init__.py lines 68-81): asserts that at least one
operand is tensor-like, then promotes a bare-scalar operand to a tensor with
the other operand dtype and device, or transfers a cpu scalar tensor to the
other operand device. -/
def xlog1pyPrologue (a b : TValue) : Except String (TValue × TValue) :=
  if isTensorLike a = false ∧ isTensorLike b = false then
    Except.error "InvalidArgument"
  else if isTensorLike a then
    match b with
    | TValue.scalar y =>
        Except.ok (a, scalar_tensor y (tensorDtype a) (tensorDevice a))
    | _ =>
        if is_cpu_scalar_tensor b then
          Except.ok (a, device_put b (tensorDevice a))
        else Except.ok (a, b)
  else
    match a with
    | TValue.scalar x =>
        Except.ok (scalar_tensor x (tensorDtype b) (tensorDevice b), b)
    | _ =>
        if is_cpu_scalar_tensor a then
          Except.ok (device_put a (tensorDevice b), b)
        else Except.ok (a, b)

/-- Positionwise characterization of the xlog1py elementwise core. -/
lemma xlog1pyCore_getD (l : ℚ → FVal) (a b : List FVal)
    (h : a.length = b.length) (i : ℕ) (hi : i < b.length) :
    (xlog1pyCore l a b).getD i FVal.nan =
      (if fIsNan (b.getD i FVal.nan) then FVal.nan
       else if fEq (a.getD i FVal.nan) (FVal.fin 0) then FVal.fin 0
       else fMul (a.getD i FVal.nan) (fLog1p l (b.getD i FVal.nan))) := by
  induction a generalizing b i with
  | nil =>
      cases b with
      | nil => exact absurd hi (by simp)
      | cons y bs => simp at h
  | cons x as ih =>
      cases b with
      | nil => exact absurd hi (by simp)
      | cons y bs =>
          rw [xlog1pyCore_cons]
          cases i with
          | zero => simp
          | succ j =>
              simp only [List.getD_cons_succ]
              exact ih bs (by simpa using h) j (by simpa using hi)

/-! Type promotion (claim about the six special reference operators). The
declarations below record, straight from torch/_refs/special/__init__.py, the
promotion kind each operator is built with. -/

/-- The elementwise type promotion kinds referenced by the source module. -/
inductive ELEMENTWISE_TYPE_PROMOTION_KIND where
  | DEFAULT
  | INT_TO_FLOAT
  | ALWAYS_BOOL
  | COMPLEX_TO_FLOAT
deriving DecidableEq, Repr

/-- A reference-operator declaration: its exported name, the promotion kind
passed to the elementwise reference builder, and the canonical aten operator
it decomposes. -/
structure RefOpDecl where
  name : String
  type_promotion_kind : ELEMENTWISE_TYPE_PROMOTION_KIND
  aten_op : String
deriving DecidableEq, Repr

/-- The six operators declared in torch/_refs/special/__init__.py, in source
order, each with the promotion kind appearing in its declaration. -/
def specialRefOps : List RefOpDecl :=
  [⟨"i1", ELEMENTWISE_TYPE_PROMOTION_KIND.INT_TO_FLOAT, "aten.special_i1"⟩,
   ⟨"i0e", ELEMENTWISE_TYPE_PROMOTION_KIND.INT_TO_FLOAT, "aten.special_i0e"⟩,
   ⟨"i1e", ELEMENTWISE_TYPE_PROMOTION_KIND.INT_TO_FLOAT, "aten.special_i1e"⟩,
   ⟨"logit", ELEMENTWISE_TYPE_PROMOTION_KIND.INT_TO_FLOAT, "aten.logit"⟩,
   ⟨"xlog1py", ELEMENTWISE_TYPE_PROMOTION_KIND.INT_TO_FLOAT,
     "aten.special_xlog1py"⟩,
   ⟨"zeta", ELEMENTWISE_TYPE_PROMOTION_KIND.INT_TO_FLOAT, "aten.special_zeta"⟩]

/-- A dtype is boolean or integer. -/
def isBoolOrInt : Dtype → Bool
  | Dtype.bool => true
  | Dtype.uint8 => true
  | Dtype.int8 => true
  | Dtype.int16 => true
  | Dtype.int32 => true
  | Dtype.int64 => true
  | _ => false

/-- A dtype is floating or complex. -/
def isFloatOrComplex : Dtype → Bool
  | Dtype.float16 => true
  | Dtype.float32 => true
  | Dtype.float64 => true
  | Dtype.bfloat16 => true
  | Dtype.complex32 => true
  | Dtype.complex64 => true
  | Dtype.complex128 => true
  | _ => false

/-- Width rank used to pick the widest floating/complex dtype; complex kinds
rank above real floating kinds, and the two 16-bit floating formats share a
rank. -/
def floatComplexRank : Dtype → ℕ
  | Dtype.float16 => 1
  | Dtype.bfloat16 => 1
  | Dtype.float32 => 2
  | Dtype.float64 => 3
  | Dtype.complex32 => 4
  | Dtype.complex64 => 5
  | Dtype.complex128 => 6
  | _ => 0

/-- Modelled from the spec: the default floating dtype (torch.get_default_dtype
is not part of this repository snapshot); the standard default is the 32-bit
float. -/
def defaultFloatDtype : Dtype := Dtype.float32

/-- Fold selecting the element of maximal floatComplexRank, keeping the
accumulator on ties. -/
def maxByRank (xs : List Dtype) (init : Dtype) : Dtype :=
  xs.foldl (fun acc d => if floatComplexRank acc < floatComplexRank d then d else acc) init

/-- Modelled from the spec: the TypePromotionEngine rule for the
integer-to-float promotion kind lives in torch._prims.utils and
torch._prims.wrappers, which are not part of this repository snapshot. Per the
spec: if all operand dtypes are boolean/integer the result dtype is the
default floating dtype, otherwise the result dtype is the widest
floating/complex dtype among the operands. -/
def promoteIntToFloat (ds : List Dtype) : Dtype :=
  if ds.all isBoolOrInt then defaultFloatDtype
  else
    let fcs := ds.filter (fun d => isFloatOrComplex d)
    maxByRank fcs.tail (fcs.headD defaultFloatDtype)

lemma maxByRank_mem (xs : List Dtype) (init : Dtype) :
    maxByRank xs init = init ∨ maxByRank xs init ∈ xs := by
  induction xs generalizing init with
  | nil => exact Or.inl rfl
  | cons d ds ih =>
      simp only [maxByRank, List.foldl_cons] at *
      by_cases h : floatComplexRank init < floatComplexRank d
      · simp only [if_pos h]
        rcases ih d with h1 | h1
        · exact Or.inr (by simp [h1])
        · exact Or.inr (List.mem_cons_of_mem _ h1)
      · simp only [if_neg h]
        rcases ih init with h1 | h1
        · exact Or.inl h1
        · exact Or.inr (List.mem_cons_of_mem _ h1)

lemma maxByRank_ge_init (xs : List Dtype) (init : Dtype) :
    floatComplexRank init ≤ floatComplexRank (maxByRank xs init) := by
  induction xs generalizing init with
  | nil => exact le_refl _
  | cons d ds ih =>
      simp only [maxByRank, List.foldl_cons] at *
      by_cases h : floatComplexRank init < floatComplexRank d
      · simp only [if_pos h]
        exact le_trans h.le (ih d)
      · simp only [if_neg h]
        exact ih init

lemma maxByRank_ge_mem (xs : List Dtype) (init : Dtype) (d : Dtype)
    (hd : d ∈ xs) :
    floatComplexRank d ≤ floatComplexRank (maxByRank xs init) := by
  induction xs generalizing init with
  | nil => exact absurd hd (List.not_mem_nil d)
  | cons e ds ih =>
      simp only [maxByRank, List.foldl_cons] at *
      rcases List.mem_cons.mp hd with h1 | h1
      · subst h1
        by_cases h : floatComplexRank init < floatComplexRank d
        · simp only [if_pos h]
          exact maxByRank_ge_init ds d
        · simp only [if_neg h]
          exact le_trans (not_lt.mp h) (maxByRank_ge_init ds init)
      · by_cases h : floatComplexRank init < floatComplexRank e
        · simp only [if_pos h]
          exact ih e h1
        · simp only [if_neg h]
          exact ih init h1

/-! The consistency-test harness (src/test/onnx/test_op_consistancy.py). -/

/-- A test decorator: unittest.expectedFailure or unittest.skip(reason). -/
inductive TestDecorator where
  | expectedFailure
  | skipWith (reason : String)
deriving DecidableEq, Repr

/-- A named tuple describing a test case to decorate (DecorateMeta, lines
104-114). -/
structure DecorateMeta where
  op_name : String
  variant_name : String
  decorator : TestDecorator
  device_type : Option String
  dtypes : Option (List Dtype)
  reason : String
deriving DecidableEq, Repr

/-- xfail (lines 117-133): expects an OpInfo test to fail. -/
def xfail (op_name : String) (variant_name : String)
    (device_type : Option String) (dtypes : Option (List Dtype))
    (reason : String) : DecorateMeta :=
  ⟨op_name, variant_name, TestDecorator.expectedFailure, device_type, dtypes,
    reason⟩

/-- skip (lines 136-152): skips a test case in OpInfo. -/
def skip (op_name : String) (variant_name : String)
    (device_type : Option String) (dtypes : Option (List Dtype))
    (reason : String) : DecorateMeta :=
  ⟨op_name, variant_name, TestDecorator.skipWith reason, device_type, dtypes,
    reason⟩

/-- opinfo_core.DecorateInfo as built by skip_ops (lines 191-197). -/
structure DecorateInfo where
  decorator : TestDecorator
  test_case_name : String
  base_test_name : String
  device_type : Option String
  dtypes : Option (List Dtype)
deriving DecidableEq, Repr

/-- The slice of an OpInfo registry entry the harness reads and writes: its
(name, variant_test_name) key and its decorator list. -/
structure OpInfo where
  name : String
  variant_test_name : String
  decorators : List DecorateInfo
deriving DecidableEq, Repr

/-- The (name, variant) key of a registry entry matches a rule. -/
def keyMatches (m : DecorateMeta) (o : OpInfo) : Bool :=
  o.name == m.op_name && o.variant_test_name == m.variant_name

/-- The DecorateInfo built from a rule by skip_ops (lines 191-197). -/
def toDecorateInfo (test_case_name base_test_name : String)
    (m : DecorateMeta) : DecorateInfo :=
  ⟨m.decorator, test_case_name, base_test_name, m.device_type, m.dtypes⟩

/-- The in-place update skip_ops performs on the resolved registry entry
(lines 190-199): append the new DecorateInfo to the existing decorators. -/
def attachRule (test_case_name base_test_name : String) (m : DecorateMeta)
    (o : OpInfo) : OpInfo :=
  if keyMatches m o then
    { o with decorators :=
        o.decorators ++ [toDecorateInfo test_case_name base_test_name m] }
  else o

/-- One iteration of the skip_ops loop body (lines 187-199): look the rule up
in the registry mapping; a missing key trips the assertion, otherwise the
matched entry gets the new DecorateInfo appended to its decorators. -/
def applyDecorateMeta (test_case_name base_test_name : String)
    (ops : List OpInfo) (m : DecorateMeta) : Except String (List OpInfo) :=
  if ops.any (keyMatches m) then
    Except.ok (ops.map (attachRule test_case_name base_test_name m))
  else Except.error ("Could not find OpInfo for " ++ m.op_name)

/-- skip_ops (lines 179-205): decorates OpInfo entries with decorators based
on the to_skip list, failing fast on the first rule whose key does not
resolve. -/
def skip_ops (all_opinfos : List OpInfo)
    (test_case_name base_test_name : String)
    (to_skip : List DecorateMeta) : Except String (List OpInfo) :=
  to_skip.foldlM (applyDecorateMeta test_case_name base_test_name) all_opinfos

/-- An entry of the XfailOpset.opsets collection: a literal opset number or a
predicate on opset numbers. -/
def OpsetSpec : Type := ℕ ⊕ (ℕ → Bool)

/-- XfailOpset (lines 155-176): expects an OpInfo test to fail on specific
ONNX opsets. -/
structure XfailOpset where
  op_name : String
  opsets : List OpsetSpec
  dtypes : Option (List Dtype)
  exception : Option String
  reason : String

/-- XfailOpset opset membership (lines 165-169): literal entries compare by
equality, callable entries are applied. -/
def XfailOpset.contains_opset (self : XfailOpset) (opset : ℕ) : Bool :=
  self.opsets.any fun opset_spec =>
    match opset_spec with
    | Sum.inl k => opset == k
    | Sum.inr f => f opset

/-- XfailOpset dtype membership (lines 171-172): dtypes is None or the dtype
is in the collection. -/
def XfailOpset.contains_dtype (self : XfailOpset) (dtype : Dtype) : Bool :=
  match self.dtypes with
  | none => true
  | some ds => ds.contains dtype

/-- XfailOpset.should_fail (lines 174-176). -/
def XfailOpset.should_fail (self : XfailOpset) (opset : ℕ) (dtype : Dtype) :
    Bool :=
  self.contains_opset opset && self.contains_dtype dtype

/-- opsets_before (lines 208-214). -/
def opsets_before (opset : ℕ) : ℕ → Bool :=
  fun other_opset => other_opset < opset

/-- opsets_after (lines 217-223). -/
def opsets_after (opset : ℕ) : ℕ → Bool :=
  fun other_opset => opset < other_opset

/-- The single declared opset-conditional rule (EXPECTED_OPSET_FAILS, lines
265-272). -/
def sqrtOpsetFail : XfailOpset :=
  ⟨"sqrt", [Sum.inr (opsets_before 13)], some [Dtype.bfloat16], none,
    "sqrt not defined for bf16 before opset 13"⟩

/-- EXPECTED_OPSET_FAILS (lines 265-272). -/
def EXPECTED_OPSET_FAILS : List XfailOpset := [sqrtOpsetFail]

/-- ALLOWLIST_OP (lines 231-235). -/
def ALLOWLIST_OP : List String := ["ceil", "sqrt", "t"]

/-- ORT_PROVIDERS (line 45). -/
def ORT_PROVIDERS : List String := ["CPUExecutionProvider"]

/-- An externally visible step of one (sample, opset) sub-test body:
a direct torch.onnx.export call, an onnx.checker.check_model call, or a
verification.verify call (which itself exports with the keyword arguments
recorded here and then runs the graph through the execution backend and
compares numerics). -/
inductive TestAction where
  | exportCall (opset : ℕ) (keep_initializers_as_inputs : Option Bool)
  | checkModel (full_check : Bool)
  | verifyCall (opset : ℕ) (keep_initializers_as_inputs : Option Bool)
      (ort_providers : List String)
      (check_shape check_dtype flatten : Bool)
deriving DecidableEq, Repr

/-- The sub-test body of TestConsistency.test_output_match for one
(sample, opset) pair (lines 336-361): for bfloat16 the model is only exported
(export keyword defaults untouched) and structurally checked with
full_check=True, then the loop continues; for every other dtype
verification.verify is invoked with keep_initializers_as_inputs=True. -/
def subTestActions (dtype : Dtype) (opset : ℕ) : List TestAction :=
  if dtype == Dtype.bfloat16 then
    [TestAction.exportCall opset none, TestAction.checkModel true]
  else
    [TestAction.verifyCall opset (some true) ORT_PROVIDERS true true true]

/-- The keep_initializers_as_inputs argument of each action that performs an
export (both direct export calls and verify calls export the model). -/
def exportKeepInits (l : List TestAction) : List (Option Bool) :=
  l.filterMap fun a =>
    match a with
    | TestAction.exportCall _ k => some k
    | TestAction.verifyCall _ k _ _ _ _ => some k
    | TestAction.checkModel _ => none

/-- An action executes the exported graph through the reference execution
backend and compares numerics (only verify does). -/
def isVerifyCall : TestAction → Bool
  | TestAction.verifyCall _ _ _ _ _ _ => true
  | _ => false

lemma attachRule_name (tc bt : String) (m : DecorateMeta) (o : OpInfo) :
    (attachRule tc bt m o).name = o.name := by
  unfold attachRule
  by_cases h : keyMatches m o <;> simp [h]

lemma attachRule_variant (tc bt : String) (m : DecorateMeta) (o : OpInfo) :
    (attachRule tc bt m o).variant_test_name = o.variant_test_name := by
  unfold attachRule
  by_cases h : keyMatches m o <;> simp [h]

lemma keyMatches_attachRule (tc bt : String) (m m2 : DecorateMeta)
    (o : OpInfo) :
    keyMatches m2 (attachRule tc bt m o) = keyMatches m2 o := by
  unfold keyMatches
  rw [attachRule_name, attachRule_variant]

lemma attachRule_decorators (tc bt : String) (m : DecorateMeta) (o : OpInfo) :
    (attachRule tc bt m o).decorators = o.decorators ++
      (if keyMatches m o then [toDecorateInfo tc bt m] else []) := by
  unfold attachRule
  by_cases h : keyMatches m o <;> simp [h]

lemma any_keyMatches_map_attachRule (tc bt : String) (m m2 : DecorateMeta)
    (ops : List OpInfo) :
    (ops.map (attachRule tc bt m)).any (keyMatches m2) =
      ops.any (keyMatches m2) := by
  induction ops with
  | nil => rfl
  | cons o os ih =>
      simp only [List.map_cons, List.any_cons, keyMatches_attachRule, ih]

/-- skip_ops aborts with an error exactly when some declared rule has a key
that resolves against no registry entry. -/
lemma skip_ops_error_iff (ops : List OpInfo) (tc bt : String)
    (rules : List DecorateMeta) :
    (∃ e, skip_ops ops tc bt rules = Except.error e) ↔
      ∃ m ∈ rules, ops.any (keyMatches m) = false := by
  induction rules generalizing ops with
  | nil => simp [skip_ops, List.foldlM_nil, pure, Except.pure]
  | cons m ms ih =>
      simp only [skip_ops, List.foldlM_cons]
      by_cases hm : ops.any (keyMatches m)
      · have h1 : applyDecorateMeta tc bt ops m =
            Except.ok (ops.map (attachRule tc bt m)) := by
          simp [applyDecorateMeta, hm]
        rw [h1]
        show (∃ e, skip_ops (ops.map (attachRule tc bt m)) tc bt ms =
            Except.error e) ↔ _
        rw [ih]
        constructor
        · rintro ⟨m2, hmem, hfalse⟩
          refine ⟨m2, List.mem_cons_of_mem _ hmem, ?_⟩
          rwa [any_keyMatches_map_attachRule] at hfalse
        · rintro ⟨m2, hmem, hfalse⟩
          rcases List.mem_cons.mp hmem with h2 | h2
          · subst h2
            exact absurd hfalse (by simp [hm])
          · exact ⟨m2, h2, by rwa [any_keyMatches_map_attachRule]⟩
      · have h1 : applyDecorateMeta tc bt ops m =
            Except.error ("Could not find OpInfo for " ++ m.op_name) := by
          simp [applyDecorateMeta, hm]
        rw [h1]
        constructor
        · intro _
          exact ⟨m, List.mem_cons_self m ms, by simpa using hm⟩
        · intro _
          exact ⟨"Could not find OpInfo for " ++ m.op_name, rfl⟩

/-- When skip_ops succeeds, every registry entry keeps its key and its
previously attached decorators, and gains exactly the DecorateInfos of the
declared rules that target it, in declaration order. -/
lemma skip_ops_additive_aux (tc bt : String) (rules : List DecorateMeta)
    (ops ops2 : List OpInfo)
    (h : skip_ops ops tc bt rules = Except.ok ops2) :
    List.Forall₂ (fun o o2 =>
      o2.name = o.name ∧ o2.variant_test_name = o.variant_test_name ∧
      o2.decorators = o.decorators ++
        ((rules.filter (fun m => keyMatches m o)).map (toDecorateInfo tc bt)))
      ops ops2 := by
  induction rules generalizing ops with
  | nil =>
      have h2 : ops = ops2 := by
        simpa [skip_ops, List.foldlM_nil, pure, Except.pure] using h
      subst h2
      rw [List.forall₂_same]
      intro o _
      simp
  | cons m ms ih =>
      simp only [skip_ops, List.foldlM_cons] at h
      by_cases hm : ops.any (keyMatches m)
      · rw [show applyDecorateMeta tc bt ops m =
            Except.ok (ops.map (attachRule tc bt m)) by
              simp [applyDecorateMeta, hm]] at h
        have h2 := ih (ops.map (attachRule tc bt m)) h
        rw [List.forall₂_map_left_iff] at h2
        refine h2.imp ?_
        intro o o2 ho
        obtain ⟨hn, hv, hd⟩ := ho
        refine ⟨by rwa [attachRule_name] at hn,
          by rwa [attachRule_variant] at hv, ?_⟩
        rw [hd, attachRule_decorators]
        have hfilt : (ms.filter fun m2 => keyMatches m2 (attachRule tc bt m o))
            = ms.filter fun m2 => keyMatches m2 o := by
          apply List.filter_congr
          intro m2 _
          rw [keyMatches_attachRule]
        rw [hfilt]
        by_cases hk : keyMatches m o
        · rw [List.filter_cons_of_pos (by simpa using hk), if_pos hk]
          simp
        · rw [List.filter_cons_of_neg (by simpa using hk), if_neg hk]
          simp
      · rw [show applyDecorateMeta tc bt ops m =
            Except.error ("Could not find OpInfo for " ++ m.op_name) by
              simp [applyDecorateMeta, hm]] at h
        simp only [bind, Except.bind] at h
        exact Except.noConfusion h

/-! The opset-fail name mapping of test_output_match (lines 311-313 and
326-333). It is a Python dict comprehension over EXPECTED_OPSET_FAILS: keys
are operator names, a later rule on the same name overwrites an earlier one,
and nothing ever checks a rule name against the operator registry. -/

/-- A Python dict with string keys, modelled as an association list with
unique keys: assignment replaces the entry of an existing key and otherwise
appends a new entry. -/
def dictInsert (d : List (String × XfailOpset)) (k : String)
    (v : XfailOpset) : List (String × XfailOpset) :=
  if d.any (fun p => p.1 == k) then
    d.map (fun p => if p.1 == k then (k, v) else p)
  else d ++ [(k, v)]

/-- Dict lookup: the value of the first (unique) entry with the key. -/
def dictLookup (d : List (String × XfailOpset)) (k : String) :
    Option XfailOpset :=
  (d.find? (fun p => p.1 == k)).map (fun p => p.2)

/-- expected_opset_fails_name_mapping (lines 311-313): the dict comprehension
mapping fail.op_name to fail, built in declaration order; it is total and
never consults the operator registry. -/
def opsetFailsNameMapping (fails : List XfailOpset) :
    List (String × XfailOpset) :=
  fails.foldl (fun d fail => dictInsert d fail.op_name fail) []

/-- The last declared rule carrying the given operator name, if any (the
value a Python dict comprehension retains for a duplicated key). -/
def lastMatch (fails : List XfailOpset) (name : String) : Option XfailOpset :=
  fails.foldl (fun acc f => if f.op_name == name then some f else acc) none

/-- The opset-fail resolution of one sub-test (lines 326-333): the sub-test
expects a raise exactly when the current operator name is a key of the name
mapping and the resolved rule's should_fail holds at the current
(opset, dtype); an absent name resolves to no expectation, raising nothing. -/
def expectedRaise (fails : List XfailOpset) (opName : String) (opset : ℕ)
    (dtype : Dtype) : Bool :=
  match dictLookup (opsetFailsNameMapping fails) opName with
  | some fail => fail.should_fail opset dtype
  | none => false

lemma find?_map_replace_ne (d : List (String × XfailOpset)) (k k2 : String)
    (v : XfailOpset) (h : (k == k2) = false) :
    (d.map (fun p => if p.1 == k then (k, v) else p)).find?
        (fun p => p.1 == k2) =
      d.find? (fun p => p.1 == k2) := by
  induction d with
  | nil => rfl
  | cons p ps ih =>
      simp only [List.map_cons]
      by_cases hp : p.1 == k
      · have h2 : (p.1 == k2) = false := by rw [beq_iff_eq.mp hp]; exact h
        rw [if_pos hp, List.find?_cons_of_neg _ (by simp [h]),
          List.find?_cons_of_neg _ (by simp [h2]), ih]
      · rw [if_neg hp]
        by_cases hq : p.1 == k2
        · rw [List.find?_cons_of_pos _ (by simp [hq]),
            List.find?_cons_of_pos _ (by simp [hq])]
        · rw [List.find?_cons_of_neg _ (by simp [hq]),
            List.find?_cons_of_neg _ (by simp [hq]), ih]

lemma find?_map_replace_self (d : List (String × XfailOpset)) (k : String)
    (v : XfailOpset) (hany : d.any (fun p => p.1 == k) = true) :
    (d.map (fun p => if p.1 == k then (k, v) else p)).find?
        (fun p => p.1 == k) = some (k, v) := by
  induction d with
  | nil => exact Bool.noConfusion hany
  | cons p ps ih =>
      simp only [List.map_cons]
      by_cases hp : p.1 == k
      · rw [if_pos hp]
        exact List.find?_cons_of_pos _ (by simp)
      · rw [if_neg hp, List.find?_cons_of_neg _ (by simp [hp])]
        apply ih
        simpa [List.any_cons, hp] using hany

lemma find?_append_single_ne (d : List (String × XfailOpset)) (k k2 : String)
    (v : XfailOpset) (h : (k == k2) = false) :
    (d ++ [(k, v)]).find? (fun p => p.1 == k2) =
      d.find? (fun p => p.1 == k2) := by
  induction d with
  | nil =>
      rw [List.nil_append, List.find?_cons_of_neg _ (by simp [h])]
  | cons p ps ih =>
      by_cases hq : p.1 == k2
      · rw [List.cons_append, List.find?_cons_of_pos _ (by simp [hq]),
          List.find?_cons_of_pos _ (by simp [hq])]
      · rw [List.cons_append, List.find?_cons_of_neg _ (by simp [hq]),
          List.find?_cons_of_neg _ (by simp [hq]), ih]

lemma find?_append_single_self (d : List (String × XfailOpset)) (k : String)
    (v : XfailOpset) (hany : d.any (fun p => p.1 == k) = false) :
    (d ++ [(k, v)]).find? (fun p => p.1 == k) = some (k, v) := by
  induction d with
  | nil =>
      rw [List.nil_append]
      exact List.find?_cons_of_pos _ (by simp)
  | cons p ps ih =>
      have hp : (p.1 == k) = false := by
        cases hb : (p.1 == k) with
        | false => rfl
        | true =>
            rw [List.any_cons, hb] at hany
            exact Bool.noConfusion hany
      rw [List.cons_append, List.find?_cons_of_neg _ (by simp [hp])]
      apply ih
      rw [List.any_cons, hp] at hany
      simpa using hany

lemma dictLookup_dictInsert_self (d : List (String × XfailOpset)) (k : String)
    (v : XfailOpset) :
    dictLookup (dictInsert d k v) k = some v := by
  unfold dictInsert dictLookup
  by_cases hany : d.any (fun p => p.1 == k)
  · rw [if_pos hany, find?_map_replace_self d k v hany]
    rfl
  · have hany2 : d.any (fun p => p.1 == k) = false := by
      cases hb : d.any (fun p => p.1 == k) with
      | false => rfl
      | true => exact absurd hb hany
    rw [if_neg hany, find?_append_single_self d k v hany2]
    rfl

lemma dictLookup_dictInsert_ne (d : List (String × XfailOpset))
    (k k2 : String) (v : XfailOpset) (h : (k == k2) = false) :
    dictLookup (dictInsert d k v) k2 = dictLookup d k2 := by
  unfold dictInsert dictLookup
  by_cases hany : d.any (fun p => p.1 == k)
  · rw [if_pos hany, find?_map_replace_ne d k k2 v h]
  · rw [if_neg hany, find?_append_single_ne d k k2 v h]

/-- Folding dict insertions and then looking a name up retains exactly the
last inserted rule for that name (generalized over the initial dict). -/
lemma dictLookup_foldInsert (fails : List XfailOpset)
    (d : List (String × XfailOpset)) (name : String) :
    dictLookup (fails.foldl (fun acc f => dictInsert acc f.op_name f) d)
        name =
      fails.foldl (fun acc f => if f.op_name == name then some f else acc)
        (dictLookup d name) := by
  induction fails generalizing d with
  | nil => rfl
  | cons f fs ih =>
      simp only [List.foldl_cons]
      rw [ih]
      congr 1
      by_cases hf : f.op_name == name
      · rw [if_pos hf]
        exact (beq_iff_eq.mp hf) ▸ dictLookup_dictInsert_self d f.op_name f
      · rw [if_neg hf]
        exact dictLookup_dictInsert_ne d f.op_name name f (by simpa using hf)

/-- The dict-comprehension name mapping retains, per operator name, only the
last declared rule. -/
lemma dictLookup_opsetFailsNameMapping (fails : List XfailOpset)
    (name : String) :
    dictLookup (opsetFailsNameMapping fails) name = lastMatch fails name :=
  dictLookup_foldInsert fails [] name

/-- Appending an opset rule whose name differs from the looked-up name leaves
the sub-test expectation unchanged: such a rule is inert for that operator. -/
lemma expectedRaise_unresolved_append (fails : List XfailOpset)
    (r : XfailOpset) (name : String) (h : (r.op_name == name) = false)
    (opset : ℕ) (dtype : Dtype) :
    expectedRaise (fails ++ [r]) name opset dtype =
      expectedRaise fails name opset dtype := by
  unfold expectedRaise
  rw [show opsetFailsNameMapping (fails ++ [r]) =
      dictInsert (opsetFailsNameMapping fails) r.op_name r by
    unfold opsetFailsNameMapping
    rw [List.foldl_append]
    rfl]
  rw [dictLookup_dictInsert_ne _ _ _ _ h]

/-! Claim theorems. -/

/-- Claim C1: for every pair of equal-length xlog1py operands, the result is
NaN at every position where b is NaN regardless of a (including a == 0); at
every position where b is not NaN and a == 0 the result is 0; and at every
remaining position the result is a * log1p(b). -/
theorem claim1_xlog1py_elementwise (l : ℚ → FVal) (a b : List FVal)
    (h : a.length = b.length) (i : ℕ) (hi : i < b.length) :
    (fIsNan (b.getD i FVal.nan) = true →
      (xlog1pyCore l a b).getD i FVal.nan = FVal.nan) ∧
    (fIsNan (b.getD i FVal.nan) = false →
      fEq (a.getD i FVal.nan) (FVal.fin 0) = true →
      (xlog1pyCore l a b).getD i FVal.nan = FVal.fin 0) ∧
    (fIsNan (b.getD i FVal.nan) = false →
      fEq (a.getD i FVal.nan) (FVal.fin 0) = false →
      (xlog1pyCore l a b).getD i FVal.nan =
        fMul (a.getD i FVal.nan) (fLog1p l (b.getD i FVal.nan))) := by
  have hpt := xlog1pyCore_getD l a b h i hi
  refine ⟨fun h1 => ?_, fun h1 h2 => ?_, fun h1 h2 => ?_⟩
  · rw [hpt, if_pos h1]
  · rw [hpt, if_neg (by rw [h1]; exact Bool.false_ne_true), if_pos h2]
  · rw [hpt, if_neg (by rw [h1]; exact Bool.false_ne_true),
      if_neg (by rw [h2]; exact Bool.false_ne_true)]

/-- Witness for claim C1 at a = [0], b = [NaN], position 0: the hypotheses
hold and b being NaN forces a NaN result even though a is zero. -/
theorem claim1_xlog1py_elementwise_witness :
    ([FVal.fin 0] : List FVal).length = ([FVal.nan] : List FVal).length ∧
    0 < ([FVal.nan] : List FVal).length ∧
    ((fIsNan (([FVal.nan] : List FVal).getD 0 FVal.nan) = true →
      (xlog1pyCore (fun _ => FVal.fin 0) [FVal.fin 0] [FVal.nan]).getD 0
        FVal.nan = FVal.nan) ∧
    (fIsNan (([FVal.nan] : List FVal).getD 0 FVal.nan) = false →
      fEq (([FVal.fin 0] : List FVal).getD 0 FVal.nan) (FVal.fin 0) = true →
      (xlog1pyCore (fun _ => FVal.fin 0) [FVal.fin 0] [FVal.nan]).getD 0
        FVal.nan = FVal.fin 0) ∧
    (fIsNan (([FVal.nan] : List FVal).getD 0 FVal.nan) = false →
      fEq (([FVal.fin 0] : List FVal).getD 0 FVal.nan) (FVal.fin 0) = false →
      (xlog1pyCore (fun _ => FVal.fin 0) [FVal.fin 0] [FVal.nan]).getD 0
        FVal.nan =
        fMul (([FVal.fin 0] : List FVal).getD 0 FVal.nan)
          (fLog1p (fun _ => FVal.fin 0)
            (([FVal.nan] : List FVal).getD 0 FVal.nan)))) :=
  ⟨rfl, by decide,
    claim1_xlog1py_elementwise (fun _ => FVal.fin 0) [FVal.fin 0] [FVal.nan]
      rfl 0 (by decide)⟩

/-- Claim C2: logit with eps unset behaves as logit with eps = -1.0, and in
that case the result equals log(x / (1 - x)) unchanged by the clamp step; for
any supplied eps the computation clamps x to [eps, 1 - eps] and then takes
log of the clamped value over one minus it. -/
theorem claim2_logit_eps_default (l : ℚ → FVal) (x : FVal) :
    logit l x none = logit l x (some (-1)) ∧
    logit l x none = fLog l (fDiv x (fSub (FVal.fin 1) x)) ∧
    ∀ e : ℚ, logit l x (some e) =
      fLog l (fDiv (fClamp x e (1 - e))
        (fSub (FVal.fin 1) (fClamp x e (1 - e)))) :=
  ⟨rfl, logit_none_eq l x, fun _ => rfl⟩

/-- Claim C4, counterexample: the bfloat16 export-only path of the sub-test
body performs an export whose keep_initializers_as_inputs argument is left
unset (None), not True. -/
theorem claim4_counterexample :
    exportKeepInits (subTestActions Dtype.bfloat16 9) = [none] ∧
      (none : Option Bool) ≠ some true := by
  constructor
  · rfl
  · decide

/-- Claim C4 as amended: exports performed through the verification path pass
keep_initializers_as_inputs = True, but the export-only bfloat16 path calls
the exporter without that argument, leaving the exporter default. -/
theorem claim4_export_keep_initializers (dtype : Dtype) (opset : ℕ) :
    (dtype ≠ Dtype.bfloat16 →
      exportKeepInits (subTestActions dtype opset) = [some true]) ∧
    (dtype = Dtype.bfloat16 →
      exportKeepInits (subTestActions dtype opset) = [none]) := by
  constructor
  · intro h
    simp [subTestActions, exportKeepInits, beq_iff_eq, h]
  · intro h
    subst h
    rfl

/-- Witness for claim C4 as amended, at dtype float32 and opset 9. -/
theorem claim4_export_keep_initializers_witness :
    Dtype.float32 ≠ Dtype.bfloat16 ∧
    exportKeepInits (subTestActions Dtype.float32 9) = [some true] :=
  ⟨by decide, (claim4_export_keep_initializers Dtype.float32 9).1 (by decide)⟩

/-- Claim C7: for a bfloat16 sub-test the body only exports the wrapper and
runs the full structural model check; no action executes the graph through
the reference execution backend or compares numerics. -/
theorem claim7_bfloat16_export_only (opset : ℕ) :
    subTestActions Dtype.bfloat16 opset =
      [TestAction.exportCall opset none, TestAction.checkModel true] ∧
    (subTestActions Dtype.bfloat16 opset).all
      (fun a => !(isVerifyCall a)) = true := by
  constructor
  · rfl
  · rfl

/-- Claim C8: xlog1py with two bare scalars fails with InvalidArgument; with
exactly one bare scalar that operand is promoted to a structured value with
the other operand dtype and device and the call proceeds. -/
theorem claim8_xlog1py_scalar_operand_handling (x y : FVal) (dt : Dtype)
    (dev : String) (nd : ℕ) (data : List FVal) :
    xlog1pyPrologue (TValue.scalar x) (TValue.scalar y) =
      Except.error "InvalidArgument" ∧
    xlog1pyPrologue (TValue.tensor dt dev nd data) (TValue.scalar y) =
      Except.ok (TValue.tensor dt dev nd data, TValue.tensor dt dev 0 [y]) ∧
    xlog1pyPrologue (TValue.scalar x) (TValue.tensor dt dev nd data) =
      Except.ok (TValue.tensor dt dev 0 [x], TValue.tensor dt dev nd data) := by
  refine ⟨rfl, rfl, rfl⟩

/-- Claim C3: every special reference operator is declared with the
integer-to-float promotion kind, and for that kind promotion sends a set of
operand dtypes that are all boolean/integer to the default floating dtype,
and otherwise yields the widest floating/complex dtype among the operands. -/
theorem claim3_int_to_float_promotion :
    specialRefOps.all (fun o => o.type_promotion_kind ==
      ELEMENTWISE_TYPE_PROMOTION_KIND.INT_TO_FLOAT) = true ∧
    ∀ ds : List Dtype,
      (ds.all isBoolOrInt = true →
        promoteIntToFloat ds = defaultFloatDtype) ∧
      (ds.all isBoolOrInt = false →
        (∃ d ∈ ds, isFloatOrComplex d = true) →
        promoteIntToFloat ds ∈ ds ∧
        isFloatOrComplex (promoteIntToFloat ds) = true ∧
        ∀ d ∈ ds, isFloatOrComplex d = true →
          floatComplexRank d ≤ floatComplexRank (promoteIntToFloat ds)) := by
  refine ⟨by decide, fun ds => ⟨fun hall => ?_, fun hall hex => ?_⟩⟩
  · unfold promoteIntToFloat
    rw [if_pos hall]
  · obtain ⟨d0, hd0, hfc0⟩ := hex
    have hmem0 : d0 ∈ ds.filter (fun d => isFloatOrComplex d) :=
      List.mem_filter.mpr ⟨hd0, hfc0⟩
    obtain ⟨f0, fs, hfcs⟩ : ∃ f0 fs,
        ds.filter (fun d => isFloatOrComplex d) = f0 :: fs := by
      cases hc : ds.filter (fun d => isFloatOrComplex d) with
      | nil => rw [hc] at hmem0; exact absurd hmem0 (List.not_mem_nil d0)
      | cons f0 fs => exact ⟨f0, fs, rfl⟩
    have hpro : promoteIntToFloat ds = maxByRank fs f0 := by
      unfold promoteIntToFloat
      rw [if_neg (by rw [hall]; exact Bool.false_ne_true), hfcs]
      rfl
    have hmemfcs : maxByRank fs f0 ∈ ds.filter (fun d => isFloatOrComplex d) := by
      rw [hfcs]
      rcases maxByRank_mem fs f0 with h1 | h1
      · rw [h1]; exact List.mem_cons_self f0 fs
      · exact List.mem_cons_of_mem f0 h1
    refine ⟨?_, ?_, ?_⟩
    · rw [hpro]
      exact (List.mem_filter.mp hmemfcs).1
    · rw [hpro]
      exact (List.mem_filter.mp hmemfcs).2
    · intro d hd hfc
      rw [hpro]
      have hdfcs : d ∈ f0 :: fs := by
        rw [← hfcs]
        exact List.mem_filter.mpr ⟨hd, hfc⟩
      rcases List.mem_cons.mp hdfcs with h1 | h1
      · rw [h1]
        exact maxByRank_ge_init fs f0
      · exact maxByRank_ge_mem fs f0 d h1

/-- Witness for claim C3: a single int32 operand promotes to the default
floating dtype. -/
theorem claim3_int_to_float_promotion_witness :
    ([Dtype.int32].all isBoolOrInt = true) ∧
    promoteIntToFloat [Dtype.int32] = defaultFloatDtype :=
  ⟨by decide,
    ((claim3_int_to_float_promotion).2 [Dtype.int32]).1 (by decide)⟩

/-- An opset-conditional rule naming an operator outside the registry, for
the claim C5 counterexample. -/
def bogusOpsetRule : XfailOpset :=
  ⟨"doesnotexist", [Sum.inl 9], none, none, "bogus"⟩

/-- Claim C5, counterexample: a declared opset-conditional rule whose
operator name resolves against no registry entry raises no error anywhere —
suite construction validates only the DecorateMeta rules and succeeds, the
per-test name mapping is built without any registry check, and the rule
never fires for the operator actually in the registry: it is silently
ignored, contradicting the claim for opset-conditional rules. -/
theorem claim5_counterexample :
    ([⟨"ceil", "", []⟩] : List OpInfo).any
        (fun o => o.name == bogusOpsetRule.op_name) = false ∧
    skip_ops [⟨"ceil", "", []⟩] "TestConsistency" "test_output_match"
        [xfail "ceil" "" none none "r"] = Except.ok
      [⟨"ceil", "",
        [⟨TestDecorator.expectedFailure, "TestConsistency",
          "test_output_match", none, none⟩]⟩] ∧
    opsetFailsNameMapping [bogusOpsetRule] =
      [("doesnotexist", bogusOpsetRule)] ∧
    expectedRaise [bogusOpsetRule] "ceil" 9 Dtype.float32 = false := by
  refine ⟨by decide, by rfl, by rfl, by decide⟩

/-- Claim C5 as amended: for skip and xfail (DecorateMeta) rules suite
construction errors exactly when some rule's key resolves against no
registry entry and succeeds when every rule resolves; declared
opset-conditional rules are never validated against the registry — their
name mapping is total, and a rule naming an operator outside the registry is
silently inert: it changes no tested operator's sub-test expectation. -/
theorem claim5_decorate_rules_fail_fast (ops : List OpInfo) (tc bt : String)
    (rules : List DecorateMeta) (fails : List XfailOpset) (r : XfailOpset)
    (hr : ops.any (fun o => o.name == r.op_name) = false) :
    ((∃ e, skip_ops ops tc bt rules = Except.error e) ↔
      ∃ m ∈ rules, ops.any (keyMatches m) = false) ∧
    ((∀ m ∈ rules, ops.any (keyMatches m) = true) →
      ∃ res, skip_ops ops tc bt rules = Except.ok res) ∧
    (∀ o ∈ ops, ∀ (opset : ℕ) (dtype : Dtype),
      expectedRaise (fails ++ [r]) o.name opset dtype =
        expectedRaise fails o.name opset dtype) := by
  refine ⟨skip_ops_error_iff ops tc bt rules, fun hall => ?_, ?_⟩
  · cases hres : skip_ops ops tc bt rules with
    | ok res => exact ⟨res, rfl⟩
    | error e =>
        obtain ⟨m, hmem, hfalse⟩ :=
          (skip_ops_error_iff ops tc bt rules).mp ⟨e, hres⟩
        rw [hall m hmem] at hfalse
        exact Bool.noConfusion hfalse
  · intro o ho opset dtype
    have h1 : (o.name == r.op_name) = false := by
      cases hb : (o.name == r.op_name) with
      | false => rfl
      | true =>
          have h2 : ops.any (fun o2 => o2.name == r.op_name) = true :=
            List.any_eq_true.mpr ⟨o, ho, hb⟩
          rw [h2] at hr
          exact Bool.noConfusion hr
    have h3 : (r.op_name == o.name) = false := by
      cases hb : (r.op_name == o.name) with
      | false => rfl
      | true =>
          rw [beq_iff_eq.mp hb] at h1
          simp at h1
    exact expectedRaise_unresolved_append fails r o.name h3 opset dtype

/-- Witness for claim C5 as amended: a registry with a single ceil entry, one
resolving DecorateMeta rule, and the unresolved opset rule appended to an
empty opset-rule list. -/
theorem claim5_decorate_rules_fail_fast_witness :
    ([⟨"ceil", "", []⟩] : List OpInfo).any
        (fun o => o.name == bogusOpsetRule.op_name) = false ∧
    (((∃ e, skip_ops [⟨"ceil", "", []⟩] "TestConsistency" "test_output_match"
          [xfail "ceil" "" none none "r"] = Except.error e) ↔
        ∃ m ∈ [xfail "ceil" "" none none "r"],
          ([⟨"ceil", "", []⟩] : List OpInfo).any (keyMatches m) = false) ∧
      ((∀ m ∈ [xfail "ceil" "" none none "r"],
          ([⟨"ceil", "", []⟩] : List OpInfo).any (keyMatches m) = true) →
        ∃ res, skip_ops [⟨"ceil", "", []⟩] "TestConsistency"
          "test_output_match" [xfail "ceil" "" none none "r"] =
            Except.ok res) ∧
      (∀ o ∈ ([⟨"ceil", "", []⟩] : List OpInfo), ∀ (opset : ℕ) (dtype : Dtype),
        expectedRaise ([] ++ [bogusOpsetRule]) o.name opset dtype =
          expectedRaise [] o.name opset dtype)) :=
  ⟨by decide,
    claim5_decorate_rules_fail_fast [⟨"ceil", "", []⟩] "TestConsistency"
      "test_output_match" [xfail "ceil" "" none none "r"] [] bogusOpsetRule
      (by decide)⟩

/-- Claim C6: the declared opset-conditional rule on sqrt expects failure
exactly for bfloat16 below opset 13. -/
theorem claim6_sqrt_opset_rule :
    EXPECTED_OPSET_FAILS = [sqrtOpsetFail] ∧
    ∀ (v : ℕ) (d : Dtype),
      sqrtOpsetFail.should_fail v d = true ↔
        (d = Dtype.bfloat16 ∧ v < 13) := by
  refine ⟨rfl, fun v d => ?_⟩
  cases d <;>
    simp [XfailOpset.should_fail, XfailOpset.contains_opset,
      XfailOpset.contains_dtype, sqrtOpsetFail, opsets_before,
      List.contains, decide_eq_true_eq]

/-- The first of two opset-conditional rules on sqrt, for the claim C9
counterexample. -/
def opsetRuleA : XfailOpset :=
  ⟨"sqrt", [Sum.inl 9], some [Dtype.float16], none, "first sqrt rule"⟩

/-- The second of two opset-conditional rules on sqrt, for the claim C9
counterexample. -/
def opsetRuleB : XfailOpset :=
  ⟨"sqrt", [Sum.inl 10], some [Dtype.float32], none, "second sqrt rule"⟩

/-- Claim C9, counterexample: opset-conditional rule attachment is not
additive — with two declared rules on sqrt, the dict-comprehension name
mapping keeps only the later one, so the earlier rule's effect is lost: it
matches (opset 9, float16) yet the run expects no raise there. -/
theorem claim9_counterexample :
    opsetRuleA.should_fail 9 Dtype.float16 = true ∧
    expectedRaise [opsetRuleA, opsetRuleB] "sqrt" 9 Dtype.float16 = false := by
  refine ⟨by decide, by decide⟩

/-- Claim C9 as amended: skip and xfail (DecorateMeta) rules compose
additively — on success every registry entry keeps its previously attached
decorators and additionally carries the decorator of each declared rule
targeting it, in declaration order — but opset-conditional rules do not: the
name mapping retains, per operator name, only the last declared rule, so
only that one takes effect during the run. -/
theorem claim9_decorate_rules_additive (tc bt : String)
    (rules : List DecorateMeta) (ops ops2 : List OpInfo)
    (h : skip_ops ops tc bt rules = Except.ok ops2) :
    List.Forall₂ (fun o o2 =>
      o2.name = o.name ∧ o2.variant_test_name = o.variant_test_name ∧
      o2.decorators = o.decorators ++
        ((rules.filter (fun m => keyMatches m o)).map (toDecorateInfo tc bt)))
      ops ops2 ∧
    (∀ (fails : List XfailOpset) (name : String),
      dictLookup (opsetFailsNameMapping fails) name = lastMatch fails name) :=
  ⟨skip_ops_additive_aux tc bt rules ops ops2 h,
    fun fails name => dictLookup_opsetFailsNameMapping fails name⟩

/-- Witness for claim C9 as amended: two independent DecorateMeta rules on
the same ceil entry both attach, in order, on top of the empty decorator
list. -/
theorem claim9_decorate_rules_additive_witness :
    skip_ops [⟨"ceil", "", []⟩] "TestConsistency" "test_output_match"
      [xfail "ceil" "" none (some [Dtype.float64]) "r1",
       skip "ceil" "" none none "r2"] = Except.ok
      [⟨"ceil", "",
        [⟨TestDecorator.expectedFailure, "TestConsistency",
          "test_output_match", none, some [Dtype.float64]⟩,
         ⟨TestDecorator.skipWith "r2", "TestConsistency",
          "test_output_match", none, none⟩]⟩] ∧
    (List.Forall₂ (fun (o o2 : OpInfo) =>
      o2.name = o.name ∧ o2.variant_test_name = o.variant_test_name ∧
      o2.decorators = o.decorators ++
        (([xfail "ceil" "" none (some [Dtype.float64]) "r1",
           skip "ceil" "" none none "r2"].filter
            (fun m => keyMatches m o)).map
          (toDecorateInfo "TestConsistency" "test_output_match")))
      [⟨"ceil", "", []⟩]
      [⟨"ceil", "",
        [⟨TestDecorator.expectedFailure, "TestConsistency",
          "test_output_match", none, some [Dtype.float64]⟩,
         ⟨TestDecorator.skipWith "r2", "TestConsistency",
          "test_output_match", none, none⟩]⟩] ∧
    (∀ (fails : List XfailOpset) (name : String),
      dictLookup (opsetFailsNameMapping fails) name = lastMatch fails name)) :=
  ⟨by rfl,
    claim9_decorate_rules_additive "TestConsistency" "test_output_match"
      [xfail "ceil" "" none (some [Dtype.float64]) "r1",
       skip "ceil" "" none none "r2"]
      [⟨"ceil", "", []⟩]
      [⟨"ceil", "",
        [⟨TestDecorator.expectedFailure, "TestConsistency",
          "test_output_match", none, some [Dtype.float64]⟩,
         ⟨TestDecorator.skipWith "r2", "TestConsistency",
          "test_output_match", none, none⟩]⟩] (by rfl)⟩

/-- Claim C10: an opset-conditional rule with dtypes omitted is independent
of the dtype, and whenever its opset predicate matches, failure is expected
for every dtype. -/
theorem claim10_none_dtypes_matches_all (r : XfailOpset)
    (h : r.dtypes = none) (v : ℕ) (d d2 : Dtype) :
    r.should_fail v d = r.should_fail v d2 ∧
    (r.contains_opset v = true → r.should_fail v d = true) := by
  unfold XfailOpset.should_fail XfailOpset.contains_dtype
  rw [h]
  simp

/-- An opset-conditional rule with no dtype restriction, for the claim C10
witness. -/
def exampleOpsetRule : XfailOpset :=
  ⟨"ceil", [Sum.inl 9], none, none, "example"⟩

/-- Witness for claim C10 at opset 9 and dtypes bool and float32. -/
theorem claim10_none_dtypes_matches_all_witness :
    exampleOpsetRule.dtypes = none ∧
    (exampleOpsetRule.should_fail 9 Dtype.bool =
      exampleOpsetRule.should_fail 9 Dtype.float32 ∧
    (exampleOpsetRule.contains_opset 9 = true →
      exampleOpsetRule.should_fail 9 Dtype.bool = true)) :=
  ⟨rfl, claim10_none_dtypes_matches_all exampleOpsetRule rfl 9 Dtype.bool
    Dtype.float32⟩
